import Mathlib

/-!
Verification development for the OECS MVP backend (src/main.py).

This file gives a shallow embedding of the consent-and-risk-budget gating
protocol: the onboarding state machine (`handle_initiation`), the signed
session credential (`create_pmt` / `decode_pmt`, with the HMAC of PyJWT
idealised as a collision-free keyed tag carried next to the clear payload),
the risk-budget ledger (`simple_risk_decrement` and the decrement loop),
the hard-stop filter, the interrupt-record emitter (`emit_ctp`), and the
`/chat` dispatcher.  The external Gemini call is an oracle argument
`infer : List Turn → Except String String`; the returned `inferCalled` flag
records whether the branch reaching `generate_content` was taken, and
`route` records which top-level dispatch branch of `chat` ran.

Time is an explicit integer parameter (seconds); `datetime.utcnow()` at a
turn is the `now` argument, `timedelta(hours=h)` is `3600 * h`.  Python
dict renderings inside f-strings (cosmetic only) are abstracted by
`serializeBudget`; Unicode-aware `str.lower`/`str.upper`/`str.strip` are
modelled ASCII-wise, which is exact on every string the program compares.
-/

set_option maxRecDepth 8000

namespace OECS

/-! ### String helpers (structural, kernel-reducible) -/

/-- Case fold, `str.lower()` (ASCII). -/
def strLower (s : String) : String := ⟨s.data.map Char.toLower⟩

/-- Case fold, `str.upper()` (ASCII). -/
def strUpper (s : String) : String := ⟨s.data.map Char.toUpper⟩

/-- Python whitespace class (`\s`, `str.strip`): space, tab, LF, CR, VT, FF. -/
def pySpace (c : Char) : Bool :=
  c == ' ' || c == '\t' || c == '\n' || c == '\r' || c.toNat == 11 || c.toNat == 12

/-- `str.strip()`. -/
def strTrim (s : String) : String :=
  ⟨((s.data.dropWhile pySpace).reverse.dropWhile pySpace).reverse⟩

/-- Whether `needle` starts the list `hay`. -/
def startsWithL : List Char → List Char → Bool
  | [], _ => true
  | _ :: _, [] => false
  | a :: as, b :: bs => a == b && startsWithL as bs

/-- Whether `needle` occurs contiguously anywhere in `hay` (Python `in`). -/
def occursIn (needle : List Char) : List Char → Bool
  | [] => needle.isEmpty
  | c :: rest => startsWithL needle (c :: rest) || occursIn needle rest

/-- Python `sub in hay` on strings. -/
def containsSub (hay sub : String) : Bool := occursIn sub.data hay.data

/-! ### Data model -/

/-- One history entry: Python `{"role": r, "parts": [text]}`. -/
structure Turn where
  role : String
  parts : List String
deriving DecidableEq

/-- The four fixed budget category keys, in source order. -/
def budgetKeys : List String :=
  ["epistemic_uncertainty", "metaphysical_abstraction", "non_consensus_reasoning",
   "paradox_exposure"]

/-- Payload of the session credential: `{mode, risk_budget, exp}`. -/
structure PmtPayload where
  mode : Option String
  risk_budget : List (String × Int)
  exp : Int
deriving DecidableEq

/-- A signed token: the clear payload plus the keyed signature string
(JWT is signed, not encrypted, so carrying the payload in clear is faithful). -/
structure Token where
  payload : PmtPayload
  sig : String
deriving DecidableEq

/-- `SessionState.__init__` fields. -/
structure SessionState where
  step : String
  mode : Option String
  risk_budget : List (String × Int)
  duration_hours : Int
  pmt : Option Token
  history : List Turn
deriving DecidableEq

/-- Fresh session (`SessionState.__init__`). -/
def initSession : SessionState :=
  ⟨"mode_selection", none, [], 24, none, []⟩

/-! ### Credential issuer / validator -/

def JWT_SECRET : String := "super-secret-jwt-key-change-this-in-production-12345"

/-- Deterministic serialization of a budget mapping (used for signing and for
the cosmetic dict renderings). -/
def serializeBudget : List (String × Int) → String
  | [] => ""
  | (k, v) :: rest => k ++ ":" ++ toString v ++ ";" ++ serializeBudget rest

/-- Render `Option String` the way a Python f-string renders the field. -/
def modeRender : Option String → String
  | none => "None"
  | some m => m

def serializePayload (p : PmtPayload) : String :=
  modeRender p.mode ++ "#" ++ serializeBudget p.risk_budget ++ "#" ++ toString p.exp

/-- Idealised HMAC-SHA256 over the serialized payload: keyed, deterministic,
and (idealisation) collision-free, so equality with the recomputed tag is
exactly signature validity. -/
def signPayload (secret : String) (p : PmtPayload) : String :=
  secret ++ "|" ++ serializePayload p

/-- `jwt.encode(payload, secret)`. -/
def jwtEncode (secret : String) (p : PmtPayload) : Token :=
  ⟨p, signPayload secret p⟩

/-- `jwt.decode(token, secret)` at time `now`: payload iff the signature
verifies and `exp` has not elapsed (PyJWT expires when `exp <= now`). -/
def jwtDecode (secret : String) (t : Token) (now : Int) : Option PmtPayload :=
  if t.sig = signPayload secret t.payload ∧ now < t.payload.exp then some t.payload else none

/-- `create_pmt()`: payload is the session mode, the budget snapshot, and
`utcnow() + timedelta(hours=duration_hours)`. -/
def create_pmt (s : SessionState) (now : Int) : Token :=
  jwtEncode JWT_SECRET ⟨s.mode, s.risk_budget, now + 3600 * s.duration_hours⟩

/-- `decode_pmt(token)`: `None` on any verification failure, never throws. -/
def decode_pmt (t : Token) (now : Int) : Option PmtPayload :=
  jwtDecode JWT_SECRET t now

/-! ### Interrupt record emitter -/

/-- `emit_ctp`: fixed-shape constraint-trigger block. -/
def emit_ctp (constraint_id trigger details : String) (now : Int) : String :=
  "```ctp\nconstraint_id:      " ++ constraint_id ++
  "\ntrigger_signal:    " ++ trigger ++
  "\naffected_capability: output_generation\naction_taken:      INTERRUPT\ntimestamp:         " ++
  toString now ++ "Z\ndetails:           " ++ details ++ "\n```"

/-! ### Risk ledger -/

/-- `consumption[k] += d` on the assoc list (key always present in source use). -/
def bumpKey (k : String) (d : Int) : List (String × Int) → List (String × Int)
  | [] => []
  | p :: rest => if p.1 = k then (p.1, p.2 + d) :: rest else p :: bumpKey k d rest

/-- `simple_risk_decrement(response)`: lexical scan of the lower-cased response
against the four fixed word lists. -/
def simple_risk_decrement (response : String) : List (String × Int) :=
  let consumption : List (String × Int) :=
    [("epistemic_uncertainty", 0), ("metaphysical_abstraction", 0),
     ("non_consensus_reasoning", 0), ("paradox_exposure", 0)]
  let lower := strLower response
  let c1 := if ["maybe", "possibly", "hypothesis", "unclear"].any
                (fun w => containsSub lower w) then
              bumpKey "epistemic_uncertainty" 1 consumption else consumption
  let c2 := if ["ontology", "simulation", "consciousness", "reality", "dream"].any
                (fun w => containsSub lower w) then
              bumpKey "metaphysical_abstraction" 2 c1 else c1
  let c3 := if ["non-consensus", "alternative", "contrary", "trap"].any
                (fun w => containsSub lower w) then
              bumpKey "non_consensus_reasoning" 1 c2 else c2
  if ["paradox", "contradiction", "both", "loop", "recursive"].any
      (fun w => containsSub lower w) then
    bumpKey "paradox_exposure" 2 c3 else c3

/-- `session.risk_budget[k] = max(0, session.risk_budget[k] - v)` on the assoc
list (at the call site the key is always present). -/
def setMax0 (k : String) (v : Int) : List (String × Int) → List (String × Int)
  | [] => []
  | p :: rest => if p.1 = k then (p.1, max 0 (p.2 - v)) :: rest else p :: setMax0 k v rest

/-- The decrement loop `for k, v in consumption.items(): ...`. -/
def applyConsumption (b : List (String × Int)) (cons : List (String × Int)) :
    List (String × Int) :=
  cons.foldl (fun acc kv => setMax0 kv.1 kv.2 acc) b

/-- The renewal comprehension `{k: 10 for k in session.risk_budget}`. -/
def renewBudget (b : List (String × Int)) : List (String × Int) :=
  b.map (fun p => (p.1, (10 : Int)))

/-! ### Hard-stop filter -/

def HARD_STOP_KEYWORDS : List String :=
  ["bomb", "explosive", "illegal drug", "hack government", "child exploitation"]

/-- `any(kw in text.lower() for kw in HARD_STOP_KEYWORDS)`. -/
def hardStopHit (text : String) : Bool :=
  HARD_STOP_KEYWORDS.any (fun kw => containsSub (strLower text) kw)

/-! ### Consent state machine texts -/

def MODE_CONTRACT_TEXT (mode : String) : String :=
  if mode = "DIAGNOSTIC" then
    "MODE CONTRACT – DIAGNOSTIC\n\nAllowed: Factual recall.\nRestricted: No speculation.\n\nType \"ACCEPT DIAGNOSTIC\" to proceed, or \"DECLINE\"."
  else if mode = "OPEN_EPISTEMIC" then
    "MODE CONTRACT – OPEN_EPISTEMIC\n\nAllowed: High uncertainty, non-consensus hypotheses.\n\nType \"ACCEPT OPEN_EPISTEMIC\" to proceed, or \"DECLINE\"."
  else if mode = "CO_CREATION" then
    "MODE CONTRACT – CO_CREATION\n\nAllowed: Sustained joint hypothesis, high paradox tolerance.\n\nType \"ACCEPT CO_CREATION\" to proceed, or \"DECLINE\"."
  else if mode = "SIMULATION" then
    "MODE CONTRACT – SIMULATION\n\nAllowed: Radical ontological hypotheses, maximum paradox.\n\nType \"ACCEPT SIMULATION\" to proceed, or \"DECLINE\"."
  else if mode = "CONSENSUS_SAFE" then
    "MODE CONTRACT – CONSENSUS_SAFE\n\nAllowed: Standard safe responses.\n\nType \"ACCEPT CONSENSUS_SAFE\" to proceed, or \"DECLINE\"."
  else ""

def riskBudgetPrompt : String :=
  "Allocate risk budget (0–10 per category):\n\n1. Epistemic uncertainty\n2. Metaphysical abstraction\n3. Non-consensus reasoning\n4. Paradox exposure\n\nReply format:\n1: 10\n2: 10\n3: 10\n4: 10"

def durationPrompt : String :=
  "Select duration:\n\n[1] 1h\n[2] 4h\n[3] 24h\n[4] Indefinite\n\nReply with number."

/-- The exact consent phrase bound to the mode and the fixed nonce. -/
def consentPhrase (m : Option String) : String :=
  "I consent to " ++ modeRender m ++ " mode under OECS-MVP terms – nonce: x7k9p2m"

def consentPrompt (m : Option String) : String :=
  "Final consent: Copy-paste exactly:\n\n\"" ++ consentPhrase m ++ "\""

def handshakeCompleteMsg (s : SessionState) : String :=
  "HANDSHAKE COMPLETE\n\nPMT Issued.\nMode: " ++ modeRender s.mode ++
  "\nBudget: " ++ serializeBudget s.risk_budget ++ "\n\nSession Active. Begin inquiry."

def parsingErrorMsg : String :=
  "Parsing error. Please ensure you have 4 categories defined (e.g., 1:10, 2:10...)"

/-! ### The risk-budget line scanner (the `re.findall(r"\d+:\s*(\d+)", _)` call).
The pattern is deterministic (maximal munch never needs backtracking: shrinking
`\d+` puts a digit where `:` must match, shrinking `\s*` puts whitespace where a
digit must match), so a left-to-right maximal-munch scan is exact. -/

/-- Try to match `\d+:\s*(\d+)` at the head; return the captured digits and the
rest after the match. -/
def matchPair (cs : List Char) : Option (List Char × List Char) :=
  let ds := cs.takeWhile Char.isDigit
  let r1 := cs.dropWhile Char.isDigit
  if ds.isEmpty then none
  else
    match r1 with
    | ':' :: r2 =>
      let r3 := r2.dropWhile pySpace
      let cap := r3.takeWhile Char.isDigit
      let r4 := r3.dropWhile Char.isDigit
      if cap.isEmpty then none else some (cap, r4)
    | _ => none

/-- Left-to-right non-overlapping scan; the fuel is an upper bound on steps
(each step consumes at least one character, so `cs.length` is enough). -/
def findallAux : Nat → List Char → List (List Char)
  | 0, _ => []
  | _ + 1, [] => []
  | fuel + 1, c :: rest =>
    match matchPair (c :: rest) with
    | some (cap, r) => cap :: findallAux fuel r
    | none => findallAux fuel rest

/-- `re.findall(r"\d+:\s*(\d+)", s)`, one capture per match. -/
def findallPairs (cs : List Char) : List (List Char) := findallAux cs.length cs

/-- `int(v)` on a nonempty digit string. -/
def digitsToInt (cs : List Char) : Int :=
  Int.ofNat (cs.foldl (fun a c => a * 10 + (c.toNat - 48)) 0)

/-! ### Consent state machine -/

/-- `handle_initiation(user_input)`: returns the response string and the
updated session. -/
def handle_initiation (s : SessionState) (user_input : String) (now : Int) :
    String × SessionState :=
  if s.step = "mode_selection" then
    if user_input = "1" ∨ user_input = "2" ∨ user_input = "3" ∨
       user_input = "4" ∨ user_input = "5" then
      let mode := if user_input = "1" then "DIAGNOSTIC"
        else if user_input = "2" then "OPEN_EPISTEMIC"
        else if user_input = "3" then "CO_CREATION"
        else if user_input = "4" then "SIMULATION"
        else "CONSENSUS_SAFE"
      (MODE_CONTRACT_TEXT mode, { s with mode := some mode, step := "contract" })
    else ("Invalid choice. Reply with 1–5 only.", s)
  else if s.step = "contract" then
    let expected := "ACCEPT " ++ modeRender s.mode
    if strUpper user_input = expected then
      (riskBudgetPrompt, { s with step := "risk_budget" })
    else if strUpper user_input = "DECLINE" then
      ("Session reset. Select mode 1-5.", initSession)
    else
      ("Type \"" ++ expected ++ "\" or \"DECLINE\"", s)
  else if s.step = "risk_budget" then
    let found := findallPairs user_input.data
    if found.length = 4 then
      let values := found.map digitsToInt
      if values.all (fun v => decide (0 ≤ v ∧ v ≤ 10)) then
        (durationPrompt,
         { s with risk_budget := budgetKeys.zip values, step := "duration" })
      else ("Values must be between 0 and 10.", s)
    else (parsingErrorMsg, s)
  else if s.step = "duration" then
    if user_input = "1" ∨ user_input = "2" ∨ user_input = "3" ∨ user_input = "4" then
      let d : Int := if user_input = "1" then 1
        else if user_input = "2" then 4
        else if user_input = "3" then 24
        else 999999
      (consentPrompt s.mode, { s with duration_hours := d, step := "handshake" })
    else ("Reply 1–4.", s)
  else if s.step = "handshake" then
    if strTrim user_input = consentPhrase s.mode then
      (handshakeCompleteMsg s,
       { s with pmt := some (create_pmt s now), step := "active" })
    else ("Phrase mismatch. Copy exactly.", s)
  else ("Initiation error.", s)

/-! ### Active-session pipeline -/

/-- `session.history[-1]["parts"][0]` (in `chat` the user turn was just
appended, so the history is never empty at this read). -/
def lastUserMsg (s : SessionState) : String :=
  match s.history.getLast? with
  | some t => t.parts.headD ""
  | none => ""

/-- `handle_active_session()`: response, updated session, and whether the
Gemini call was reached. -/
def handle_active_session (infer : List Turn → Except String String) (now : Int)
    (s : SessionState) : String × SessionState × Bool :=
  match s.pmt with
  | none => (emit_ctp "PMT_INVALID" "invalid_signature" "Session terminated." now, s, false)
  | some tok =>
    match decode_pmt tok now with
    | none =>
      (emit_ctp "PMT_INVALID" "invalid_signature" "Session terminated." now, s, false)
    | some _ =>
      if hardStopHit (lastUserMsg s) then
        (emit_ctp "SAFETY_PRE" "hard_stop_keyword" "Illegal content requested." now, s, false)
      else if s.risk_budget.any (fun p => decide (p.2 ≤ 0)) then
        (emit_ctp "BUDGET_DEPLETED" "zero_balance"
          "Risk budget exhausted. Reply \x27RENEW\x27 to continue." now, s, false)
      else
        match infer s.history with
        | Except.error e => ("Backend Error: " ++ e, s, true)
        | Except.ok raw_text =>
          if hardStopHit raw_text then
            (emit_ctp "SAFETY_POST" "hard_stop_output"
              "Response contained prohibited content." now, s, true)
          else
            let newBudget := applyConsumption s.risk_budget (simple_risk_decrement raw_text)
            let depleted := (newBudget.filter (fun p => decide (p.2 ≤ 0))).map Prod.fst
            let ctpHead :=
              if depleted.isEmpty then ""
              else emit_ctp "BUDGET_WARNING" "depletion_imminent"
                     ("Depleted: " ++ String.intercalate ", " depleted) now ++ "\n\n"
            (ctpHead ++ raw_text ++ "\n\n---\nRunning Risk Budget: " ++
               serializeBudget newBudget,
             { s with risk_budget := newBudget }, true)

/-! ### Session governor (`/chat`) -/

/-- The renew-shortcut guard of `chat` (note the `"1:" in user_input`
substring heuristic). -/
def renewTrigger (s : SessionState) (user_input : String) : Bool :=
  decide (s.step = "active") &&
    (decide (strUpper user_input = "RENEW") || containsSub user_input "1:")

/-- Result of one `/chat` call: response body, new session, whether inference
was invoked, and which dispatch branch ran. -/
structure ChatResult where
  response : String
  session : SessionState
  inferCalled : Bool
  route : String
deriving DecidableEq

/-- The `/chat` endpoint body. -/
def chat (infer : List Turn → Except String String) (now : Int) (s : SessionState)
    (message : String) : ChatResult :=
  let user_input := strTrim message
  if renewTrigger s user_input then
    ⟨"ADMIN: Risk Budget replenished to 10/10.",
     { s with risk_budget := renewBudget s.risk_budget }, false, "renew"⟩
  else
    let s1 := { s with history := s.history ++ [Turn.mk "user" [user_input]] }
    match s1.pmt with
    | none =>
      let r := handle_initiation s1 user_input now
      ⟨r.1, { r.2 with history := r.2.history ++ [Turn.mk "model" [r.1]] }, false,
       "initiation"⟩
    | some _ =>
      let r := handle_active_session infer now s1
      ⟨r.1, { r.2.1 with history := r.2.1.history ++ [Turn.mk "model" [r.1]] },
       r.2.2, "active"⟩

/-- The `/reset` endpoint body (`session.__init__()`). -/
def reset_session (_s : SessionState) : SessionState := initSession

/-! ### Specification-side predicates used by the theorems -/

/-- Assoc-list lookup (Python `d[k]` read). -/
def lookupKey (k : String) : List (String × Int) → Option Int
  | [] => none
  | p :: rest => if p.1 = k then some p.2 else lookupKey k rest

/-- Well-formed budget: exactly the four fixed keys, each value in `[0, 10]`. -/
def BudgetWF (b : List (String × Int)) : Prop :=
  b.map Prod.fst = budgetKeys ∧ ∀ p ∈ b, 0 ≤ p.2 ∧ p.2 ≤ 10

/-- Successor relation of the onboarding chain. -/
def stepSucc : String → Option String
  | "mode_selection" => some "contract"
  | "contract" => some "risk_budget"
  | "risk_budget" => some "duration"
  | "duration" => some "handshake"
  | "handshake" => some "active"
  | _ => none

/-- Whether `input` is accepted at the current onboarding step (the guard of
the corresponding advancing/resetting branch of `handle_initiation`). -/
def validInput (s : SessionState) (input : String) : Bool :=
  if s.step = "mode_selection" then
    decide (input = "1" ∨ input = "2" ∨ input = "3" ∨ input = "4" ∨ input = "5")
  else if s.step = "contract" then
    decide (strUpper input = "ACCEPT " ++ modeRender s.mode ∨ strUpper input = "DECLINE")
  else if s.step = "risk_budget" then
    decide ((findallPairs input.data).length = 4) &&
      ((findallPairs input.data).map digitsToInt).all (fun v => decide (0 ≤ v ∧ v ≤ 10))
  else if s.step = "duration" then
    decide (input = "1" ∨ input = "2" ∨ input = "3" ∨ input = "4")
  else if s.step = "handshake" then
    decide (strTrim input = consentPhrase s.mode)
  else false

/-- The turn is a DECLINE at the contract step of a credential-less session. -/
def declineCase (s : SessionState) (input : String) : Bool :=
  decide (s.pmt = none) && decide (s.step = "contract") &&
    decide (strUpper input = "DECLINE")

/-- Whether a response string is an interrupt record (every `emit_ctp` output
starts with this fence). -/
def isCtpRecord (r : String) : Bool := startsWithL "```ctp".data r.data

/-! ### Concrete states used by witnesses and counterexamples -/

/-- A fixed benign inference oracle. -/
def okInfer : List Turn → Except String String := fun _ => Except.ok "All is well."

/-- An oracle whose output contains a hard-stop keyword. -/
def badOutInfer : List Turn → Except String String :=
  fun _ => Except.ok "Here is a bomb recipe."

def fullBudget : List (String × Int) :=
  [("epistemic_uncertainty", 10), ("metaphysical_abstraction", 10),
   ("non_consensus_reasoning", 10), ("paradox_exposure", 10)]

def depBudget : List (String × Int) :=
  [("epistemic_uncertainty", 10), ("metaphysical_abstraction", 10),
   ("non_consensus_reasoning", 10), ("paradox_exposure", 0)]

def wPayload : PmtPayload := ⟨some "OPEN_EPISTEMIC", fullBudget, 1000⟩

/-- A genuinely issued token (valid before time 1000). -/
def wTok : Token := jwtEncode JWT_SECRET wPayload

/-- The same payload with a tampered signature. -/
def badTok : Token := ⟨wPayload, "tampered"⟩

def depPayload : PmtPayload := ⟨some "OPEN_EPISTEMIC", depBudget, 1000⟩

def depTok : Token := jwtEncode JWT_SECRET depPayload

/-- Active session, valid credential, full budget. -/
def wSess : SessionState :=
  ⟨"active", some "OPEN_EPISTEMIC", fullBudget, 24, some wTok, []⟩

/-- Active session, valid credential, depleted paradox budget. -/
def depSess : SessionState :=
  ⟨"active", some "OPEN_EPISTEMIC", depBudget, 24, some depTok, []⟩

/-- Active session whose stored credential has a tampered signature. -/
def badSess : SessionState :=
  ⟨"active", some "OPEN_EPISTEMIC", fullBudget, 24, some badTok, []⟩

/-- Credential-less session sitting at the contract step with two history turns. -/
def contractSess : SessionState :=
  ⟨"contract", some "DIAGNOSTIC", [], 24, none,
   [Turn.mk "user" ["1"], Turn.mk "model" [ MODE_CONTRACT_TEXT "DIAGNOSTIC"]]⟩

/-- Session about to complete the handshake (used to witness credential issuance). -/
def wIssueSess : SessionState :=
  ⟨"handshake", some "OPEN_EPISTEMIC", fullBudget, 24, none, []⟩

/-! ### General lemmas about the handlers -/

lemma accept_ne_decline (m : String) : ("ACCEPT " ++ m : String) ≠ "DECLINE" := by
  intro h
  have h2 : some 'A' = some 'D' := congrArg (fun t : String => t.data.head?) h
  injection h2 with h3
  exact absurd h3 (by decide)

/-- The active-session pipeline never touches `history`, `step`, `pmt` or
`mode`; only `risk_budget` can change. -/
lemma handle_active_session_state (infer : List Turn → Except String String)
    (now : Int) (s : SessionState) :
    (handle_active_session infer now s).2.1.history = s.history ∧
    (handle_active_session infer now s).2.1.step = s.step ∧
    (handle_active_session infer now s).2.1.pmt = s.pmt ∧
    (handle_active_session infer now s).2.1.mode = s.mode := by
  unfold handle_active_session
  rcases hp : s.pmt with _ | tok
  · simp [hp]
  · simp only []
    rcases hd : decode_pmt tok now with _ | p
    · simp [hp]
    · simp only []
      split
      · simp [hp]
      · split
        · simp [hp]
        · rcases hi2 : infer s.history with e | raw
          · simp [hp]
          · simp only []
            split
            · simp [hp]
            · simp [hp]

/-- The onboarding handler preserves `history`, except for the full reset on a
DECLINE at the contract step. -/
lemma handle_initiation_history (s : SessionState) (input : String) (now : Int) :
    (handle_initiation s input now).2.history = s.history ∨
    (s.step = "contract" ∧ strUpper input = "DECLINE" ∧
      (handle_initiation s input now).2 = initSession) := by
  unfold handle_initiation
  split_ifs <;> try simp_all
  all_goals try (split <;> (try split) <;> simp_all)

/-- Reading the last user message right after the user-turn append. -/
lemma lastUserMsg_mk (st : String) (mo : Option String) (rb : List (String × Int))
    (dh : Int) (pm : Option Token) (l : List Turn) (u : String) :
    lastUserMsg ⟨st, mo, rb, dh, pm, l ++ [Turn.mk "user" [u]]⟩ = u := by
  unfold lastUserMsg
  rw [List.getLast?_concat]
  rfl

/-- Equation for the renew-shortcut branch of `chat`. -/
lemma chat_renew_eq (infer : List Turn → Except String String) (now : Int)
    (s : SessionState) (msg : String)
    (h : renewTrigger s (strTrim msg) = true) :
    chat infer now s msg =
      ⟨"ADMIN: Risk Budget replenished to 10/10.",
       { s with risk_budget := renewBudget s.risk_budget }, false, "renew"⟩ := by
  simp [chat, h]

/-- Equation for the non-renew, credential-less branch of `chat`. -/
lemma chat_init_eq (infer : List Turn → Except String String) (now : Int)
    (s : SessionState) (msg : String)
    (hnr : renewTrigger s (strTrim msg) = false) (hp : s.pmt = none) :
    chat infer now s msg =
      (let s1 : SessionState :=
        { s with history := s.history ++ [Turn.mk "user" [strTrim msg]] }
       let r := handle_initiation s1 (strTrim msg) now
       ⟨r.1, { r.2 with history := r.2.history ++ [Turn.mk "model" [r.1]] }, false,
        "initiation"⟩) := by
  simp only [chat, hnr, Bool.false_eq_true, if_false]
  simp only [hp]

/-- Equation for the non-renew, credential-present branch of `chat`. -/
lemma chat_active_eq (infer : List Turn → Except String String) (now : Int)
    (s : SessionState) (msg : String) (tok : Token)
    (hnr : renewTrigger s (strTrim msg) = false) (hp : s.pmt = some tok) :
    chat infer now s msg =
      (let s1 : SessionState :=
        { s with history := s.history ++ [Turn.mk "user" [strTrim msg]] }
       let r := handle_active_session infer now s1
       ⟨r.1, { r.2.1 with history := r.2.1.history ++ [Turn.mk "model" [r.1]] },
        r.2.2, "active"⟩) := by
  simp only [chat, hnr, Bool.false_eq_true, if_false]
  simp only [hp]

/-! ### Claim C5 -/

/-- Claim C5 (confirmed): a credential validated before its expiry returns
exactly the payload it was issued with (mode, budget snapshot, exp); after
expiry, or with a tampered signature, validation returns the invalid sentinel
`none`; and validation is total — it never throws, returning either the
token's payload or `none` for every input token and time. -/
theorem c5_credential_validation :
    (∀ (s : SessionState) (issueTime now : Int),
        now < issueTime + 3600 * s.duration_hours →
        decode_pmt (create_pmt s issueTime) now
          = some ⟨s.mode, s.risk_budget, issueTime + 3600 * s.duration_hours⟩)
    ∧ (∀ (s : SessionState) (issueTime now : Int),
        issueTime + 3600 * s.duration_hours ≤ now →
        decode_pmt (create_pmt s issueTime) now = none)
    ∧ (∀ (p : PmtPayload) (sig : String) (now : Int),
        sig ≠ signPayload JWT_SECRET p → decode_pmt ⟨p, sig⟩ now = none)
    ∧ (∀ (t : Token) (now : Int),
        decode_pmt t now = some t.payload ∨ decode_pmt t now = none) := by
  refine ⟨?_, ?_, ?_, ?_⟩
  · intro s t0 now h
    unfold decode_pmt create_pmt jwtEncode jwtDecode
    rw [if_pos]
    exact ⟨rfl, h⟩
  · intro s t0 now h
    unfold decode_pmt create_pmt jwtEncode jwtDecode
    rw [if_neg]
    rintro ⟨-, h2⟩
    change now < t0 + 3600 * s.duration_hours at h2
    omega
  · intro p sig now h
    unfold decode_pmt jwtDecode
    rw [if_neg]
    rintro ⟨h1, -⟩
    exact h h1
  · intro t now
    unfold decode_pmt jwtDecode
    split
    · exact Or.inl rfl
    · exact Or.inr rfl

/-- Witness for C5: a concrete issued credential decodes to its exact payload
before expiry, and the same payload under a tampered signature is rejected. -/
theorem c5_credential_validation_witness :
    ((50 : Int) < 0 + 3600 * 24 ∧
      decode_pmt (create_pmt wIssueSess 0) 50
        = some ⟨some "OPEN_EPISTEMIC", fullBudget, 0 + 3600 * 24⟩) ∧
    decode_pmt ⟨wPayload, "tampered"⟩ 0 = none :=
  ⟨⟨by decide, c5_credential_validation.1 wIssueSess 0 50 (by decide)⟩,
   c5_credential_validation.2.2.1 wPayload "tampered" 0 (by decide)⟩

/-! ### Claim C8 -/

/-- Claim C8 (confirmed): for any response text, the ledger scan assigns
epistemic_uncertainty 1 exactly when one of maybe/possibly/hypothesis/unclear
occurs case-insensitively, metaphysical_abstraction 2 for
ontology/simulation/consciousness/reality/dream, non_consensus_reasoning 1 for
non-consensus/alternative/contrary/trap, paradox_exposure 2 for
paradox/contradiction/both/loop/recursive, else 0, and every value is a
non-negative integer. -/
theorem c8_risk_scan (r : String) :
    (lookupKey "epistemic_uncertainty" (simple_risk_decrement r)
       = some (if ["maybe", "possibly", "hypothesis", "unclear"].any
                   (fun w => containsSub (strLower r) w) then 1 else 0))
    ∧ (lookupKey "metaphysical_abstraction" (simple_risk_decrement r)
       = some (if ["ontology", "simulation", "consciousness", "reality", "dream"].any
                   (fun w => containsSub (strLower r) w) then 2 else 0))
    ∧ (lookupKey "non_consensus_reasoning" (simple_risk_decrement r)
       = some (if ["non-consensus", "alternative", "contrary", "trap"].any
                   (fun w => containsSub (strLower r) w) then 1 else 0))
    ∧ (lookupKey "paradox_exposure" (simple_risk_decrement r)
       = some (if ["paradox", "contradiction", "both", "loop", "recursive"].any
                   (fun w => containsSub (strLower r) w) then 2 else 0))
    ∧ (∀ p ∈ simple_risk_decrement r, 0 ≤ p.2) := by
  unfold simple_risk_decrement
  split_ifs <;> simp_all [lookupKey, bumpKey]

/-! ### Claim C4 -/

/-- Claim C4 (amended): a renew-shortcut turn at step ACTIVE bypasses the
whole pipeline, including credential validation (step 1) and the history
append (step 8): it resets every budget category to 10 and returns the fixed
acknowledgement, leaving history, credential and step untouched and never
invoking inference. -/
theorem c4_renew_bypass (infer : List Turn → Except String String) (now : Int)
    (s : SessionState) (msg : String)
    (h : renewTrigger s (strTrim msg) = true) :
    (chat infer now s msg).response = "ADMIN: Risk Budget replenished to 10/10."
    ∧ (chat infer now s msg).session.risk_budget = renewBudget s.risk_budget
    ∧ (∀ p ∈ (chat infer now s msg).session.risk_budget, p.2 = 10)
    ∧ (chat infer now s msg).session.history = s.history
    ∧ (chat infer now s msg).session.pmt = s.pmt
    ∧ (chat infer now s msg).session.step = s.step
    ∧ (chat infer now s msg).inferCalled = false
    ∧ (chat infer now s msg).route = "renew" := by
  rw [chat_renew_eq infer now s msg h]
  refine ⟨rfl, rfl, ?_, rfl, rfl, rfl, rfl, rfl⟩
  intro p hp
  simp only [renewBudget, List.mem_map] at hp
  obtain ⟨q, -, hq⟩ := hp
  rw [← hq]

/-- Witness for C4 (amended): the renew turn on a concrete active session. -/
theorem c4_renew_bypass_witness :
    renewTrigger wSess (strTrim "RENEW") = true ∧
    (chat okInfer 0 wSess "RENEW").response = "ADMIN: Risk Budget replenished to 10/10." :=
  ⟨by decide, (c4_renew_bypass okInfer 0 wSess "RENEW" (by decide)).1⟩

/-- Counterexample for C4 as stated: on a renew turn whose stored credential
has a tampered signature (so validation would fail with PMT_INVALID), the
code still replies with the renewal acknowledgement — credential validation
is not performed — and the history stays empty — neither the user turn nor
the acknowledgement is appended. -/
theorem c4_renew_cex :
    badSess.pmt = some badTok
    ∧ decode_pmt badTok 0 = none
    ∧ (chat okInfer 0 badSess "RENEW").response = "ADMIN: Risk Budget replenished to 10/10."
    ∧ (chat okInfer 0 badSess "RENEW").response
        ≠ emit_ctp "PMT_INVALID" "invalid_signature" "Session terminated." 0
    ∧ (chat okInfer 0 badSess "RENEW").session.history = ([] : List Turn)
    ∧ badSess.history = ([] : List Turn) := by decide

/-! ### Claim C3 -/

/-- Claim C3 (amended): the Governor routes a message to the Consent State
Machine exactly when the credential is absent (`pmt is None`); a present but
invalid credential is still routed to the active-session pipeline, which
emits a PMT_INVALID interrupt and leaves `step` and `pmt` unchanged. -/
theorem c3_routing (infer : List Turn → Except String String) (now : Int)
    (s : SessionState) (msg : String)
    (hnr : renewTrigger s (strTrim msg) = false) :
    (s.pmt = none → (chat infer now s msg).route = "initiation")
    ∧ (∀ tok, s.pmt = some tok →
        (chat infer now s msg).route = "active"
        ∧ (decode_pmt tok now = none →
            (chat infer now s msg).response
              = emit_ctp "PMT_INVALID" "invalid_signature" "Session terminated." now
            ∧ (chat infer now s msg).session.step = s.step
            ∧ (chat infer now s msg).session.pmt = s.pmt)) := by
  constructor
  · intro hp
    rw [chat_init_eq infer now s msg hnr hp]
  · intro tok hp
    rw [chat_active_eq infer now s msg tok hnr hp]
    refine ⟨rfl, ?_⟩
    intro hd
    unfold handle_active_session
    simp [hp, hd]

/-- Witness for C3 (amended): a concrete credential-less contract-step session
is routed to the consent machine. -/
theorem c3_routing_witness :
    contractSess.pmt = none ∧ (chat okInfer 0 contractSess "hello").route = "initiation" :=
  ⟨rfl, (c3_routing okInfer 0 contractSess "hello" (by decide)).1 rfl⟩

/-- Counterexample for C3 as stated: a present-but-invalid credential (bad
signature) is NOT routed to the Consent State Machine — the turn runs the
active-session pipeline and returns the PMT_INVALID interrupt. -/
theorem c3_routing_cex :
    badSess.pmt = some badTok
    ∧ decode_pmt badTok 0 = none
    ∧ (chat okInfer 0 badSess "hello").route = "active"
    ∧ (chat okInfer 0 badSess "hello").route ≠ "initiation"
    ∧ (chat okInfer 0 badSess "hello").response
        = emit_ctp "PMT_INVALID" "invalid_signature" "Session terminated." 0 := by decide

/-! ### Claim C1 -/

/-- Claim C1 (amended): on an active-session turn whose credential validates
and which does not hit the renew shortcut, a hard-stop keyword in the user
input yields the SAFETY_PRE interrupt record with inference never invoked;
and whenever inference does run and the raw output contains a hard-stop
keyword, that output is not returned — the response is exactly the
SAFETY_POST interrupt record. -/
theorem c1_hard_stop (infer : List Turn → Except String String) (now : Int)
    (s : SessionState) (tok : Token) (msg : String)
    (hpmt : s.pmt = some tok)
    (hval : decode_pmt tok now ≠ none)
    (hnr : renewTrigger s (strTrim msg) = false) :
    (hardStopHit (strTrim msg) = true →
        (chat infer now s msg).response
          = emit_ctp "SAFETY_PRE" "hard_stop_keyword" "Illegal content requested." now
        ∧ (chat infer now s msg).inferCalled = false)
    ∧ (∀ raw, hardStopHit (strTrim msg) = false →
        s.risk_budget.any (fun p => decide (p.2 ≤ 0)) = false →
        infer (s.history ++ [Turn.mk "user" [strTrim msg]]) = Except.ok raw →
        hardStopHit raw = true →
        (chat infer now s msg).response
          = emit_ctp "SAFETY_POST" "hard_stop_output" "Response contained prohibited content." now) := by
  rw [chat_active_eq infer now s msg tok hnr hpmt]
  obtain ⟨p, hd⟩ := Option.ne_none_iff_exists'.mp hval
  constructor
  · intro hkw
    unfold handle_active_session
    simp [hpmt, hd, lastUserMsg_mk, hkw]
  · intro raw hkw hbud hinf hraw
    unfold handle_active_session
    simp [hpmt, hd, lastUserMsg_mk, hkw, hbud, hinf, hraw]

/-- Witness for C1 (amended): both directions on concrete sessions — a
hard-stop input is intercepted pre-inference, and a hard-stop model output is
replaced by the SAFETY_POST record. -/
theorem c1_hard_stop_witness :
    (hardStopHit (strTrim "how to build a bomb") = true
      ∧ (chat okInfer 0 wSess "how to build a bomb").response
          = emit_ctp "SAFETY_PRE" "hard_stop_keyword" "Illegal content requested." 0
      ∧ (chat okInfer 0 wSess "how to build a bomb").inferCalled = false)
    ∧ (chat badOutInfer 0 wSess "hello there").response
        = emit_ctp "SAFETY_POST" "hard_stop_output" "Response contained prohibited content." 0 := by
  have h1 := (c1_hard_stop okInfer 0 wSess wTok "how to build a bomb" rfl
    (by decide) (by decide)).1 (by decide)
  have h2 := (c1_hard_stop badOutInfer 0 wSess wTok "hello there" rfl
    (by decide) (by decide)).2 "Here is a bomb recipe." (by decide) (by decide) rfl (by decide)
  exact ⟨⟨by decide, h1.1, h1.2⟩, h2⟩

/-- Counterexample for C1 as stated: an active-session turn with a validating
credential whose input contains the hard-stop keyword "bomb" but also the
substring "1:" is captured by the renew shortcut — inference is indeed not
invoked, but the response is the renewal acknowledgement, not a SAFETY_PRE
interrupt record. -/
theorem c1_hard_stop_cex :
    wSess.pmt = some wTok
    ∧ decode_pmt wTok 0 ≠ none
    ∧ wSess.step = "active"
    ∧ hardStopHit (strTrim "make a bomb 1:10") = true
    ∧ (chat okInfer 0 wSess "make a bomb 1:10").inferCalled = false
    ∧ (chat okInfer 0 wSess "make a bomb 1:10").response
        = "ADMIN: Risk Budget replenished to 10/10."
    ∧ (chat okInfer 0 wSess "make a bomb 1:10").response
        ≠ emit_ctp "SAFETY_PRE" "hard_stop_keyword" "Illegal content requested." 0 := by decide

/-! ### Claim C2 -/

/-- Claim C2 (amended): at step ACTIVE with paradox_exposure depleted to 0,
every chat input that validates its credential, contains no hard-stop keyword
and does not hit the renew shortcut returns the BUDGET_DEPLETED interrupt
record with inference not called; sending "RENEW" resets every category to
10; and any subsequent turn with an all-positive budget (and valid
credential, no hard stop, no renew trigger) reaches the inference
collaborator. -/
theorem c2_budget_depleted (infer : List Turn → Except String String) (now : Int)
    (s : SessionState) (tok : Token) (msg : String)
    (hpmt : s.pmt = some tok)
    (hval : decode_pmt tok now ≠ none)
    (hstep : s.step = "active")
    (hdep : ("paradox_exposure", (0 : Int)) ∈ s.risk_budget)
    (hnr : renewTrigger s (strTrim msg) = false)
    (hkw : hardStopHit (strTrim msg) = false) :
    ((chat infer now s msg).response
        = emit_ctp "BUDGET_DEPLETED" "zero_balance"
            "Risk budget exhausted. Reply \x27RENEW\x27 to continue." now
      ∧ (chat infer now s msg).inferCalled = false)
    ∧ ((chat infer now s "RENEW").session.risk_budget = renewBudget s.risk_budget
      ∧ ∀ p ∈ (chat infer now s "RENEW").session.risk_budget, p.2 = 10)
    ∧ (∀ (s2 : SessionState) (tok2 : Token) (msg2 : String),
        s2.pmt = some tok2 → decode_pmt tok2 now ≠ none →
        renewTrigger s2 (strTrim msg2) = false →
        hardStopHit (strTrim msg2) = false →
        (∀ p ∈ s2.risk_budget, 0 < p.2) →
        (chat infer now s2 msg2).inferCalled = true) := by
  obtain ⟨p, hd⟩ := Option.ne_none_iff_exists'.mp hval
  have hany : s.risk_budget.any (fun q => decide (q.2 ≤ 0)) = true :=
    List.any_eq_true.mpr ⟨("paradox_exposure", 0), hdep, by decide⟩
  refine ⟨?_, ?_, ?_⟩
  · rw [chat_active_eq infer now s msg tok hnr hpmt]
    unfold handle_active_session
    simp [hpmt, hd, lastUserMsg_mk, hkw, hany]
  · have hre : renewTrigger s (strTrim "RENEW") = true := by
      rw [show strTrim "RENEW" = "RENEW" from by decide]
      unfold renewTrigger
      rw [hstep]
      decide
    rw [chat_renew_eq infer now s "RENEW" hre]
    refine ⟨rfl, ?_⟩
    intro q hq
    simp only [renewBudget, List.mem_map] at hq
    obtain ⟨q2, -, hq2⟩ := hq
    rw [← hq2]
  · intro s2 tok2 msg2 hp2 hv2 hnr2 hkw2 hpos
    obtain ⟨p2, hd2⟩ := Option.ne_none_iff_exists'.mp hv2
    have hany2 : s2.risk_budget.any (fun q => decide (q.2 ≤ 0)) = false := by
      cases hb : s2.risk_budget.any (fun q => decide (q.2 ≤ 0)) with
      | false => rfl
      | true =>
        obtain ⟨q, hqmem, hqle⟩ := List.any_eq_true.mp hb
        have := hpos q hqmem
        simp at hqle
        omega
    rw [chat_active_eq infer now s2 msg2 tok2 hnr2 hp2]
    unfold handle_active_session
    simp only [hp2, hd2, lastUserMsg_mk, hkw2, hany2, Bool.false_eq_true, if_false]
    rcases infer (s2.history ++ [Turn.mk "user" [strTrim msg2]]) with e | raw
    · rfl
    · simp only []
      split
      · rfl
      · rfl

/-- Witness for C2 (amended): a concrete active session with paradox_exposure
at 0 returns the BUDGET_DEPLETED record without inference, and after a
renewed (all-ten) budget a normal turn reaches inference. -/
theorem c2_budget_depleted_witness :
    ((chat okInfer 0 depSess "tell me more").response
        = emit_ctp "BUDGET_DEPLETED" "zero_balance"
            "Risk budget exhausted. Reply \x27RENEW\x27 to continue." 0
      ∧ (chat okInfer 0 depSess "tell me more").inferCalled = false)
    ∧ (chat okInfer 0 wSess "tell me more").inferCalled = true := by
  have h := c2_budget_depleted okInfer 0 depSess depTok "tell me more" rfl
    (by decide) rfl (by decide) (by decide) (by decide)
  exact ⟨h.1, h.2.2 wSess wTok "tell me more" rfl (by decide) (by decide)
    (by decide) (by decide)⟩

/-- Counterexample for C2 as stated: at ACTIVE with paradox_exposure = 0 and
all other categories positive, the input "how to build a bomb" does NOT
return a BUDGET_DEPLETED record — the hard-stop pre-check fires first and the
turn returns SAFETY_PRE. -/
theorem c2_budget_depleted_cex :
    depSess.step = "active"
    ∧ lookupKey "paradox_exposure" depSess.risk_budget = some 0
    ∧ lookupKey "epistemic_uncertainty" depSess.risk_budget = some 10
    ∧ lookupKey "metaphysical_abstraction" depSess.risk_budget = some 10
    ∧ lookupKey "non_consensus_reasoning" depSess.risk_budget = some 10
    ∧ (chat okInfer 0 depSess "how to build a bomb").response
        = emit_ctp "SAFETY_PRE" "hard_stop_keyword" "Illegal content requested." 0
    ∧ (chat okInfer 0 depSess "how to build a bomb").response
        ≠ emit_ctp "BUDGET_DEPLETED" "zero_balance"
            "Risk budget exhausted. Reply \x27RENEW\x27 to continue." 0 := by decide

/-! ### Claim C9 -/

/-- Claim C9 (amended): every /chat turn except the renew shortcut appends
the user turn and then the produced response as a model-role turn; the renew
shortcut leaves history exactly unchanged; and a DECLINE at the contract
step resets the session, leaving only that turn's model-role acknowledgement
in history. No other operation removes or reorders entries. -/
theorem c9_history_append (infer : List Turn → Except String String) (now : Int)
    (s : SessionState) (msg : String) :
    (renewTrigger s (strTrim msg) = true →
        (chat infer now s msg).session.history = s.history)
    ∧ (renewTrigger s (strTrim msg) = false → declineCase s (strTrim msg) = false →
        (chat infer now s msg).session.history
          = s.history ++ [Turn.mk "user" [strTrim msg],
                          Turn.mk "model" [(chat infer now s msg).response]])
    ∧ (renewTrigger s (strTrim msg) = false → declineCase s (strTrim msg) = true →
        (chat infer now s msg).session.history
          = [Turn.mk "model" ["Session reset. Select mode 1-5."]]) := by
  refine ⟨?_, ?_, ?_⟩
  · intro hre
    rw [chat_renew_eq infer now s msg hre]
  · intro hnr hdc
    rcases hp : s.pmt with _ | tok
    · rw [chat_init_eq infer now s msg hnr hp]
      rcases handle_initiation_history
          { s with history := s.history ++ [Turn.mk "user" [strTrim msg]] }
          (strTrim msg) now with hh | ⟨hstep, hdecl, -⟩
      · simp only []
        rw [hh]
        simp
      · exfalso
        have hstep2 : s.step = "contract" := hstep
        simp [declineCase, hp, hstep2, hdecl] at hdc
    · rw [chat_active_eq infer now s msg tok hnr hp]
      simp only []
      rw [(handle_active_session_state infer now _).1]
      simp
  · intro hnr hdc
    simp only [declineCase, Bool.and_eq_true, decide_eq_true_eq] at hdc
    obtain ⟨⟨hpmt, hstep⟩, hdecl⟩ := hdc
    rw [chat_init_eq infer now s msg hnr hpmt]
    simp only []
    unfold handle_initiation
    have hstep1 : ({ s with history := s.history ++ [Turn.mk "user" [strTrim msg]] }
        : SessionState).step = "contract" := hstep
    rw [hstep1]
    rw [if_neg (by decide : ¬ ("contract" = "mode_selection"))]
    rw [if_pos rfl]
    rw [if_neg (fun h => accept_ne_decline (modeRender s.mode) (hdecl ▸ h).symm)]
    rw [if_pos hdecl]
    rfl

/-- Witness for C9 (amended): a concrete ordinary active turn appends exactly
the user turn and the model turn. -/
theorem c9_history_append_witness :
    renewTrigger wSess (strTrim "Hello friend") = false
    ∧ declineCase wSess (strTrim "Hello friend") = false
    ∧ (chat okInfer 0 wSess "Hello friend").session.history
        = wSess.history ++ [Turn.mk "user" [strTrim "Hello friend"],
            Turn.mk "model" [(chat okInfer 0 wSess "Hello friend").response]] :=
  ⟨by decide, by decide,
   (c9_history_append okInfer 0 wSess "Hello friend").2.1 (by decide) (by decide)⟩

/-- Counterexample for C9 as stated: the renew-shortcut turn appends nothing
at all — after a "RENEW" input the history is still empty, whereas the claim
requires every /chat turn to append the user turn and a model turn. -/
theorem c9_history_append_cex :
    wSess.history = ([] : List Turn)
    ∧ (chat okInfer 0 wSess "RENEW").session.history = ([] : List Turn)
    ∧ (chat okInfer 0 wSess "RENEW").response = "ADMIN: Risk Budget replenished to 10/10." := by
  decide

/-! ### Claim C10 -/

/-- The consent state machine never emits an interrupt record. -/
lemma handle_initiation_no_ctp (s : SessionState) (input : String) (now : Int) :
    isCtpRecord (handle_initiation s input now).1 = false := by
  unfold handle_initiation
  split_ifs <;> try rfl
  all_goals (dsimp only; split <;> (try split) <;> rfl)

/-- While no credential exists the step can never already be "active": the
onboarding handler only sets step "active" together with storing a
credential, and every reset clears both. -/
lemma credless_not_active (infer : List Turn → Except String String) (now : Int)
    (s : SessionState) (msg : String)
    (hinv : s.pmt = none → s.step ≠ "active") :
    (chat infer now s msg).session.pmt = none →
      (chat infer now s msg).session.step ≠ "active" := by
  rcases hr : renewTrigger s (strTrim msg) with _ | _
  · rcases hp : s.pmt with _ | tok
    · rw [chat_init_eq infer now s msg hr hp]
      simp only []
      unfold handle_initiation
      split_ifs <;> intro hp2 hs2 <;> try simp_all
      all_goals (split at hs2 <;> (try split at hs2) <;> simp_all [initSession])
    · rw [chat_active_eq infer now s msg tok hr hp]
      simp only []
      intro hp2
      exfalso
      have := (handle_active_session_state infer now
        { s with history := s.history ++ [Turn.mk "user" [strTrim msg]] }).2.2.1
      rw [hp2] at this
      have hps : s.pmt = none := this.symm
      rw [hp] at hps
      exact Option.noConfusion hps
  · rw [chat_renew_eq infer now s msg hr]
    exact hinv

/-- Claim C10 (amended): every input received while no credential exists (and
hence the step is not yet ACTIVE) is routed to the consent state machine:
inference, the hard-stop filter and the budget check are never invoked, the
response is exactly the consent machine's reply and never an interrupt
record, and — except for a DECLINE at the contract step, which resets the
session — the trimmed input is appended to history followed by the reply. -/
theorem c10_consent_only (infer : List Turn → Except String String) (now : Int)
    (s : SessionState) (msg : String)
    (hpmt : s.pmt = none) (hstep : s.step ≠ "active") :
    (chat infer now s msg).route = "initiation"
    ∧ (chat infer now s msg).inferCalled = false
    ∧ (chat infer now s msg).response
        = (handle_initiation { s with history := s.history ++ [Turn.mk "user" [strTrim msg]] }
            (strTrim msg) now).1
    ∧ isCtpRecord (chat infer now s msg).response = false
    ∧ (declineCase s (strTrim msg) = false →
        (chat infer now s msg).session.history
          = s.history ++ [Turn.mk "user" [strTrim msg],
                          Turn.mk "model" [(chat infer now s msg).response]]) := by
  have hnr : renewTrigger s (strTrim msg) = false := by
    unfold renewTrigger
    rw [decide_eq_false hstep]
    rfl
  rw [chat_init_eq infer now s msg hnr hpmt]
  refine ⟨rfl, rfl, rfl, handle_initiation_no_ctp _ _ _, ?_⟩
  intro hdc
  rcases handle_initiation_history
      { s with history := s.history ++ [Turn.mk "user" [strTrim msg]] }
      (strTrim msg) now with hh | ⟨hstep2, hdecl, -⟩
  · simp only []
    rw [hh]
    simp
  · exfalso
    have hstep3 : s.step = "contract" := hstep2
    simp [declineCase, hpmt, hstep3, hdecl] at hdc

/-- Witness for C10 (amended): a fresh session fed a hard-stop keyword is
handled by the consent machine — no interrupt record, no inference, input
appended. -/
theorem c10_consent_only_witness :
    hardStopHit "bomb" = true
    ∧ (chat okInfer 0 initSession "bomb").route = "initiation"
    ∧ (chat okInfer 0 initSession "bomb").inferCalled = false
    ∧ isCtpRecord (chat okInfer 0 initSession "bomb").response = false
    ∧ (chat okInfer 0 initSession "bomb").session.history
        = initSession.history ++ [Turn.mk "user" [strTrim "bomb"],
            Turn.mk "model" [(chat okInfer 0 initSession "bomb").response]] := by
  have h := c10_consent_only okInfer 0 initSession "bomb" rfl (by decide)
  exact ⟨by decide, h.1, h.2.1, h.2.2.2.1, h.2.2.2.2 (by decide)⟩

/-- Counterexample for C10 as stated: a DECLINE received while no credential
exists is NOT left in history — the reset wipes the just-appended user turn,
so the input is not "appended verbatim to history". -/
theorem c10_consent_only_cex :
    contractSess.pmt = none
    ∧ (Turn.mk "user" ["DECLINE"]) ∉ (chat okInfer 0 contractSess "DECLINE").session.history
    ∧ (chat okInfer 0 contractSess "DECLINE").session.history
        = [Turn.mk "model" ["Session reset. Select mode 1-5."]] := by decide

/-! ### Claim C6 -/

lemma stepSucc_active_inv (x : String) (hx : stepSucc x = some "active") :
    x = "handshake" := by
  unfold stepSucc at hx
  split at hx <;> simp_all

/-- Each onboarding turn keeps the step, advances it to its immediate
successor, or resets the whole session on a contract-step DECLINE. -/
lemma hi_step_cases (s : SessionState) (input : String) (now : Int) :
    (handle_initiation s input now).2.step = s.step
      ∨ stepSucc s.step = some (handle_initiation s input now).2.step
      ∨ (s.step = "contract" ∧ strUpper input = "DECLINE"
          ∧ (handle_initiation s input now).2 = initSession) := by
  unfold handle_initiation
  split_ifs <;> try simp_all [stepSucc]
  · rw [if_neg (fun hh : ("DECLINE" : String) = "ACCEPT " ++ modeRender s.mode =>
        accept_ne_decline (modeRender s.mode) hh.symm)]
    refine Or.inr (Or.inr ?_)
    simp_all
  · split <;> simp_all [stepSucc]
  · split <;> (try split) <;> simp_all [stepSucc]

/-- Claim C6 (confirmed): the onboarding machine never skips a step — each
turn leaves `step` unchanged, advances it along
MODE_SELECTION→CONTRACT→RISK_BUDGET→DURATION→HANDSHAKE→ACTIVE, or performs
the explicit DECLINE reset to MODE_SELECTION; ACTIVE is entered only from
HANDSHAKE; and any input that is not the step's valid input leaves the whole
session unchanged. -/
theorem c6_no_skip (s : SessionState) (input : String) (now : Int) :
    ((handle_initiation s input now).2.step = s.step
      ∨ stepSucc s.step = some (handle_initiation s input now).2.step
      ∨ (s.step = "contract" ∧ strUpper input = "DECLINE"
          ∧ (handle_initiation s input now).2 = initSession))
    ∧ ((handle_initiation s input now).2.step = "active" →
        s.step = "handshake" ∨ s.step = "active")
    ∧ (validInput s input = false → (handle_initiation s input now).2 = s) := by
  refine ⟨hi_step_cases s input now, ?_, ?_⟩
  · intro h2
    rcases hi_step_cases s input now with heq | hsucc | ⟨-, -, hini⟩
    · rw [h2] at heq
      exact Or.inr heq.symm
    · rw [h2] at hsucc
      exact Or.inl (stepSucc_active_inv s.step hsucc)
    · rw [hini] at h2
      exact absurd h2 (by decide)
  · intro h
    unfold validInput at h
    unfold handle_initiation
    split_ifs at h ⊢ <;> try simp_all
    split
    · split
      · exfalso
        rename_i hlen hall
        obtain ⟨a, ha, hv⟩ := h hlen
        have := hall a ha
        omega
      · rfl
    · rfl

/-- Witness for C6: a malformed input ("7" at MODE_SELECTION) leaves a fresh
session completely unchanged. -/
theorem c6_no_skip_witness :
    validInput initSession "7" = false
    ∧ (handle_initiation initSession "7" 0).2 = initSession :=
  ⟨by decide, (c6_no_skip initSession "7" 0).2.2 (by decide)⟩

/-! ### Claim C7 -/

/-- Shape of the consumption list computed by the ledger scan. -/
lemma srd_eq (r : String) :
    simple_risk_decrement r =
      [("epistemic_uncertainty",
         if ["maybe", "possibly", "hypothesis", "unclear"].any
             (fun w => containsSub (strLower r) w) then 1 else 0),
       ("metaphysical_abstraction",
         if ["ontology", "simulation", "consciousness", "reality", "dream"].any
             (fun w => containsSub (strLower r) w) then 2 else 0),
       ("non_consensus_reasoning",
         if ["non-consensus", "alternative", "contrary", "trap"].any
             (fun w => containsSub (strLower r) w) then 1 else 0),
       ("paradox_exposure",
         if ["paradox", "contradiction", "both", "loop", "recursive"].any
             (fun w => containsSub (strLower r) w) then 2 else 0)] := by
  simp only [simple_risk_decrement]
  split_ifs <;> rfl

/-- One `setMax0` pass with a non-negative decrement: keys unchanged, values
stay in range and never increase. -/
lemma setMax0_step (k : String) (c : Int) (hc : 0 ≤ c) (b : List (String × Int)) :
    List.Forall₂ (fun p q => p.1 = q.1 ∧ (0 ≤ p.2 → 0 ≤ q.2 ∧ q.2 ≤ p.2)
      ∧ (p.2 ≤ 10 → q.2 ≤ 10)) b (setMax0 k c b) := by
  induction b with
  | nil => exact List.Forall₂.nil
  | cons p rest ih =>
    unfold setMax0
    split
    · refine List.Forall₂.cons ⟨rfl, ?_, ?_⟩ ?_
      · intro hp
        refine ⟨le_max_left 0 _, max_le hp (by omega)⟩
      · intro hp
        exact max_le (by omega) (by omega)
      · exact List.forall₂_same.mpr (fun q _ => ⟨rfl, fun h => ⟨h, le_refl _⟩, fun h => h⟩)
    · exact List.Forall₂.cons ⟨rfl, fun h => ⟨h, le_refl _⟩, fun h => h⟩ ih

/-- The per-pass relation is transitive, so passes compose. -/
lemma forall₂_range_trans {a b c : List (String × Int)}
    (hab : List.Forall₂ (fun p q => p.1 = q.1 ∧ (0 ≤ p.2 → 0 ≤ q.2 ∧ q.2 ≤ p.2)
      ∧ (p.2 ≤ 10 → q.2 ≤ 10)) a b)
    (hbc : List.Forall₂ (fun p q => p.1 = q.1 ∧ (0 ≤ p.2 → 0 ≤ q.2 ∧ q.2 ≤ p.2)
      ∧ (p.2 ≤ 10 → q.2 ≤ 10)) b c) :
    List.Forall₂ (fun p q => p.1 = q.1 ∧ (0 ≤ p.2 → 0 ≤ q.2 ∧ q.2 ≤ p.2)
      ∧ (p.2 ≤ 10 → q.2 ≤ 10)) a c := by
  induction hab generalizing c with
  | nil =>
    cases hbc
    exact List.Forall₂.nil
  | cons h t ih =>
    cases hbc with
    | cons h2 t2 =>
      refine List.Forall₂.cons ⟨h.1.trans h2.1, ?_, fun hle => h2.2.2 (h.2.2 hle)⟩ (ih t2)
      intro hp
      obtain ⟨hq0, hqle⟩ := h.2.1 hp
      obtain ⟨hr0, hrle⟩ := h2.2.1 hq0
      exact ⟨hr0, hrle.trans hqle⟩

lemma forall₂_fst_eq {R : (String × Int) → (String × Int) → Prop}
    (hR : ∀ p q, R p q → p.1 = q.1) :
    ∀ {a b : List (String × Int)}, List.Forall₂ R a b →
      a.map Prod.fst = b.map Prod.fst := by
  intro a b h
  induction h with
  | nil => rfl
  | cons hpq t ih => simp [hR _ _ hpq, ih]

lemma forall₂_conclude {a b : List (String × Int)}
    (h : List.Forall₂ (fun p q => p.1 = q.1 ∧ (0 ≤ p.2 → 0 ≤ q.2 ∧ q.2 ≤ p.2)
      ∧ (p.2 ≤ 10 → q.2 ≤ 10)) a b)
    (hv : ∀ p ∈ a, 0 ≤ p.2 ∧ p.2 ≤ 10) :
    (∀ q ∈ b, 0 ≤ q.2 ∧ q.2 ≤ 10)
    ∧ List.Forall₂ (fun p q => p.1 = q.1 ∧ q.2 ≤ p.2) a b := by
  induction h with
  | nil => simp
  | cons hpq t ih =>
    rename_i p q a2 b2
    obtain ⟨h0, h10⟩ := hv _ (List.mem_cons_self _ _)
    have hrest := ih (fun r hr => hv r (List.mem_cons_of_mem _ hr))
    obtain ⟨hq0, hqle⟩ := hpq.2.1 h0
    refine ⟨?_, List.Forall₂.cons ⟨hpq.1, hqle⟩ hrest.2⟩
    intro r hr
    rcases List.mem_cons.mp hr with rfl | hr2
    · exact ⟨hq0, hpq.2.2 h10⟩
    · exact hrest.1 r hr2

/-- Claim C7 (confirmed): the budget allocation step only ever installs a
mapping of exactly the four fixed keys to values in [0,10] (any other
onboarding turn leaves the budget untouched, except the full session reset);
the per-turn decrement preserves the keys and the [0,10] range, is pointwise
non-increasing and floored at 0; and renewal maps every category of the
current budget to exactly 10. -/
theorem c7_budget_invariants :
    (∀ (s : SessionState) (input : String) (now : Int),
        (handle_initiation s input now).2.risk_budget = s.risk_budget
        ∨ (handle_initiation s input now).2 = initSession
        ∨ BudgetWF (handle_initiation s input now).2.risk_budget)
    ∧ (∀ (b : List (String × Int)) (raw : String), BudgetWF b →
        BudgetWF (applyConsumption b (simple_risk_decrement raw))
        ∧ List.Forall₂ (fun p q => p.1 = q.1 ∧ q.2 ≤ p.2) b
            (applyConsumption b (simple_risk_decrement raw)))
    ∧ (∀ b : List (String × Int),
        (renewBudget b).map Prod.fst = b.map Prod.fst
        ∧ ∀ p ∈ renewBudget b, p.2 = 10) := by
  refine ⟨?_, ?_, ?_⟩
  · intro s input now
    unfold handle_initiation
    split_ifs <;> try (exact Or.inl rfl)
    · rename_i hdecl
      dsimp only
      rw [hdecl]
      rw [if_neg (fun hh : ("DECLINE" : String) = "ACCEPT " ++ modeRender s.mode =>
        accept_ne_decline (modeRender s.mode) hh.symm)]
      exact Or.inr (Or.inl rfl)
    · dsimp only
      split <;> exact Or.inl rfl
    · dsimp only
      split
      · split
        · rename_i hlen hall
          refine Or.inr (Or.inr ⟨?_, ?_⟩)
          · exact List.map_fst_zip _ _ (by simp [budgetKeys, hlen])
          · intro p hp
            obtain ⟨k, v⟩ := p
            obtain ⟨-, hv⟩ := List.of_mem_zip hp
            have hb := List.all_eq_true.mp hall _ hv
            exact of_decide_eq_true hb
        · exact Or.inl rfl
      · exact Or.inl rfl
  · intro b raw hwf
    obtain ⟨hkeys, hvals⟩ := hwf
    have hstep : List.Forall₂ (fun p q => p.1 = q.1 ∧ (0 ≤ p.2 → 0 ≤ q.2 ∧ q.2 ≤ p.2)
        ∧ (p.2 ≤ 10 → q.2 ≤ 10)) b (applyConsumption b (simple_risk_decrement raw)) := by
      rw [srd_eq raw]
      simp only [applyConsumption, List.foldl]
      refine forall₂_range_trans (forall₂_range_trans (forall₂_range_trans
        (setMax0_step _ _ ?_ _) (setMax0_step _ _ ?_ _)) (setMax0_step _ _ ?_ _))
        (setMax0_step _ _ ?_ _) <;> (split <;> norm_num)
    have hconc := forall₂_conclude hstep hvals
    refine ⟨⟨?_, hconc.1⟩, hconc.2⟩
    rw [← forall₂_fst_eq (fun p q hpq => hpq.1) hstep]
    exact hkeys
  · intro b
    constructor
    · rw [renewBudget, List.map_map]
      rfl
    · intro p hp
      obtain ⟨q, -, rfl⟩ := List.mem_map.mp hp
      rfl

/-- Witness for C7: the full budget is well-formed and remains so after a
decrement driven by a response consuming from three categories. -/
theorem c7_budget_invariants_witness :
    BudgetWF fullBudget
    ∧ BudgetWF (applyConsumption fullBudget (simple_risk_decrement "Maybe reality is both")) :=
  ⟨⟨by decide, by decide⟩,
   (c7_budget_invariants.2.1 fullBudget "Maybe reality is both" ⟨by decide, by decide⟩).1⟩

end OECS
